import Mathlib

/-!
Shallow embedding of `src/load_tester.py` (class `LoadTester`) and proofs of
the specification claims about it.

Latencies and timestamps are modelled as rationals; the Python dictionary
passed to `LoadTester.__init__` is modelled as a partial map from strings to
Python values; exceptions are modelled with `Except`.
-/

namespace LoadTester

/-- The Python values that occur in the configuration dictionary. -/
inductive PyVal where
  | pystr (s : String)
  | pynum (q : ℚ)
  | pybool (b : Bool)
  | pylist (l : List ℚ)
  | pynone
  deriving DecidableEq

/-- Python truthiness, as used by `if kwargs['percentiles']` and
`if self.log_enabled`. -/
def PyVal.truthy : PyVal → Bool
  | .pystr s => s != ""
  | .pynum q => q != 0
  | .pybool b => b
  | .pylist l => !l.isEmpty
  | .pynone => false

/-- The Python exceptions that the embedded code can raise. -/
inductive PyError where
  | keyError (k : String)
  | attributeError
  | nameError
  | zeroDivisionError
  deriving DecidableEq

/-- The mutable per-run state of a `LoadTester` object: `self.latencies`,
`self.errors` and `self.request_count`. -/
structure RState where
  latencies : List ℚ
  errors : Nat
  request_count : Nat
  deriving DecidableEq

/-- The state right after `__init__`: `self.errors = 0`, `self.latencies = []`,
`self.request_count = 0`. -/
def initState : RState := ⟨[], 0, 0⟩

/-- The result of one `requests.request(...)` transport call: either a response
object carrying a status code (observed after `elapsed` seconds), or an
exception raised after `elapsed` seconds. -/
inductive TransportResult where
  | response (status_code : Nat) (elapsed : ℚ)
  | raised (elapsed : ℚ)
  deriving DecidableEq

/-- One line written by `log_request`: timestamp, latency and status code. -/
structure LogLine where
  timestamp : ℚ
  latency : ℚ
  status_code : Nat
  deriving DecidableEq

/-- The state update performed by `LoadTester.request` for one transport
result: on a response, the latency is appended and the error counter is
incremented for a non-200 status; on an exception, the latency is computed but
NOT appended, and the error counter is incremented; in both cases
`self.request_count` is incremented. -/
def request_state (r : TransportResult) (st : RState) : RState :=
  match r with
  | .response status latency =>
      { st with
        latencies := st.latencies ++ [latency],
        errors := st.errors + (if status ≠ 200 then 1 else 0),
        request_count := st.request_count + 1 }
  | .raised _ =>
      { st with
        errors := st.errors + 1,
        request_count := st.request_count + 1 }

/-- `LoadTester.request`: the full effect of one call, as
(new state, log lines written, uncaught exception).  When logging is enabled
the final statement reads `response.status_code`; on the exception path the
local variable `response` was never bound, so that read raises `NameError`
before any log line is written. -/
def request (log_enabled : Bool) (start_time : ℚ) (r : TransportResult)
    (st : RState) : RState × List LogLine × Option PyError :=
  match r with
  | .response status latency =>
      (request_state r st,
       if log_enabled then [⟨start_time, latency, status⟩] else [],
       none)
  | .raised _ =>
      (request_state r st, [], if log_enabled then some .nameError else none)

/-- `LoadTester.run`, sequentialised: the while loop body runs
`self.request()` once per iteration until `self.request_count` reaches
`self.max_requests` (each call increments the counter by exactly one, so
exactly `max_requests` transport calls are made); a `NameError` escaping a
request thread kills only that thread, after the state updates above have
already been applied, and does not stop the loop.  `transport k` is the
result of the k-th transport call and `k` doubles as its start timestamp. -/
def run (log_enabled : Bool) (max_requests : Nat)
    (transport : Nat → TransportResult) : RState :=
  (List.range max_requests).foldl
    (fun (st : RState) (k : ℕ) =>
      (request log_enabled (k : ℚ) (transport k) st).1) initState

/-- What `LoadTester.report` prints: `len(self.latencies)` as Total Requests
and `self.errors` as Total Errors. -/
structure Report where
  total_requests : Nat
  total_errors : Nat
  deriving DecidableEq

/-- `LoadTester.report` (console part). -/
def report (st : RState) : Report := ⟨st.latencies.length, st.errors⟩

/-- The percentage computed inside the loop of
`calculate_response_time_percentiles`:
`percentage = (count / total_requests) * 100` with
`count = sum(latency >= threshold for latency in self.latencies)`.
The Python code stores `str(percentage) + "%"`; we keep the number. -/
def exceedance_pct (latencies : List ℚ) (t : ℚ) : ℚ :=
  ((latencies.countP fun l => decide (t ≤ l) : ℕ) : ℚ) /
    ((latencies.length : ℕ) : ℚ) * 100

/-- `LoadTester.calculate_response_time_percentiles`: for each threshold in
order, the percentage of recorded latencies that are ≥ the threshold, keyed by
the threshold.  When `self.latencies` is empty and there is at least one
threshold, the division `count / total_requests` raises `ZeroDivisionError`. -/
def calculate_response_time_percentiles (latencies : List ℚ) :
    List ℚ → Except PyError (List (ℚ × ℚ))
  | [] => .ok []
  | t :: ts =>
      if latencies.length = 0 then .error .zeroDivisionError
      else
        match calculate_response_time_percentiles latencies ts with
        | .error e => .error e
        | .ok rest => .ok ((t, exceedance_pct latencies t) :: rest)

/-- Python's `sum(xs) / len(xs)` for the latency list (`avg_latency` in
`log_report`). -/
def avg_latency (l : List ℚ) : ℚ := l.sum / l.length

/-- Python's `max(xs)` on a list of rationals (raises on `[]`; the code only
calls it on a non-empty list, the `[]` case is an arbitrary default). -/
def pyMax : List ℚ → ℚ
  | [] => 0
  | x :: xs => xs.foldl max x

/-- Python's `min(xs)` (same remarks as `pyMax`). -/
def pyMin : List ℚ → ℚ
  | [] => 0
  | x :: xs => xs.foldl min x

/-- The radicand of `std_dev` in `log_report`:
`sum((x - avg_latency) ** 2 for x in self.latencies) / len(self.latencies)`;
the file receives `math.sqrt` of this value. -/
def std_dev_sq (l : List ℚ) : ℚ :=
  (l.map fun x => (x - avg_latency l) ^ 2).sum / l.length

/-- `std_dev` as computed in `log_report`: `math.sqrt` of `std_dev_sq`. -/
noncomputable def std_dev (l : List ℚ) : ℝ := Real.sqrt ((std_dev_sq l : ℚ) : ℝ)

/-- Modelled from the spec: the repository computes percentiles via
`np.percentile`, an external library call whose source is not in this
repository.  The spec defines Percentile(p) as "the value at rank
`p/100·(N−1)` in the sorted latency sequence, linearly interpolated between
adjacent ranks", for a non-empty latency list. -/
def percentile (l : List ℚ) (p : ℚ) : Option ℚ :=
  match l with
  | [] => none
  | _ :: _ =>
      let s := List.insertionSort (fun a b => a ≤ b) l
      let pos : ℚ := p / 100 * ((l.length : ℚ) - 1)
      let i : ℕ := (⌊pos⌋).toNat
      let lo := s.getD i 0
      let hi := s.getD (i + 1) lo
      some (lo + (pos - (i : ℚ)) * (hi - lo))

/-- The detailed statistics block that `log_report` writes for a non-empty
latency list.  `variance` is the radicand of the Standard Deviation line (the
file receives its square root); each percentile line carries the
`np.percentile` value; `threshold_table` is present iff `self.reponses` is
non-empty. -/
structure DetailedStats where
  avg : ℚ
  maxl : ℚ
  minl : ℚ
  amplitude : ℚ
  variance : ℚ
  percentile_table : List (ℚ × Option ℚ)
  threshold_table : Option (List (ℚ × ℚ))
  deriving DecidableEq

/-- The body that `log_report` appends to the log file after the header:
either the detailed statistics, or the sentinel line
"Average Latency: No Requests made for Latency Computation". -/
inductive ReportBody where
  | noData
  | stats (s : DetailedStats)
  deriving DecidableEq

/-- `LoadTester.log_report`: on an empty latency list it takes the `else`
branch and writes only the no-data sentinel; otherwise it writes the detailed
statistics, calling `calculate_response_time_percentiles` only when
`self.reponses` is non-empty (Python truthiness of the list). -/
def log_report (latencies percentiles reponses : List ℚ) :
    Except PyError ReportBody :=
  match latencies with
  | [] => .ok .noData
  | _ :: _ =>
      match reponses with
      | [] =>
          .ok (.stats
            { avg := avg_latency latencies
              maxl := pyMax latencies
              minl := pyMin latencies
              amplitude := pyMax latencies - pyMin latencies
              variance := std_dev_sq latencies
              percentile_table := percentiles.map fun p => (p, percentile latencies p)
              threshold_table := none })
      | _ :: _ =>
          match calculate_response_time_percentiles latencies reponses with
          | .error e => .error e
          | .ok tbl =>
              .ok (.stats
                { avg := avg_latency latencies
                  maxl := pyMax latencies
                  minl := pyMin latencies
                  amplitude := pyMax latencies - pyMin latencies
                  variance := std_dev_sq latencies
                  percentile_table := percentiles.map fun p => (p, percentile latencies p)
                  threshold_table := some tbl })

/-- Spec: "Threshold exceedance(t) … `100 × count(latency ≥ t) / N`". -/
def spec_exceedance (latencies : List ℚ) (t : ℚ) : ℚ :=
  100 * ((latencies.countP fun l => decide (t ≤ l) : ℕ) : ℚ) /
    ((latencies.length : ℕ) : ℚ)

/-- Spec: "Mean = arithmetic mean of latencies" (written `(1/N)·Σ`). -/
def spec_mean (l : List ℚ) : ℚ := ((l.length : ℚ))⁻¹ * l.sum

/-- Spec: "Standard deviation = population standard deviation (divide by N,
not N−1)": the sum of squared deviations from the mean, divided by N. -/
def spec_population_variance (l : List ℚ) : ℚ :=
  ((l.length : ℚ))⁻¹ * (l.map fun x => (x - spec_mean l) ^ 2).sum

/-- Spec tag `Failure(cause)`: the transport call raised. -/
def isRaised : TransportResult → Bool
  | .raised _ => true
  | .response _ _ => false

/-- Spec tag `Success(status)` with a non-200 status. -/
def isBadStatus : TransportResult → Bool
  | .response s _ => s != 200
  | .raised _ => false

lemma request_fst (log_enabled : Bool) (start_time : ℚ) (r : TransportResult)
    (st : RState) : (request log_enabled start_time r st).1 = request_state r st := by
  cases r <;> rfl

lemma run_eq_foldl (log_enabled : Bool) (n : ℕ) (f : ℕ → TransportResult) :
    run log_enabled n f
      = ((List.range n).map f).foldl (fun s r => request_state r s) initState := by
  unfold run
  rw [List.foldl_map]
  simp only [request_fst]

lemma foldl_request_state_errors (outcomes : List TransportResult) (st : RState) :
    (outcomes.foldl (fun s r => request_state r s) st).errors
      = st.errors + outcomes.countP isRaised + outcomes.countP isBadStatus := by
  induction outcomes generalizing st with
  | nil => simp
  | cons r rs ih =>
      simp only [List.foldl_cons]
      rw [ih]
      cases r with
      | response s e =>
          simp only [request_state, List.countP_cons, isRaised, isBadStatus]
          by_cases hs : s = 200
          · simp [hs]
          · simp [hs]
            omega
      | raised e =>
          simp only [request_state, List.countP_cons, isRaised, isBadStatus]
          simp
          omega

lemma foldl_request_state_count (outcomes : List TransportResult) (st : RState) :
    (outcomes.foldl (fun s r => request_state r s) st).request_count
      = st.request_count + outcomes.length := by
  induction outcomes generalizing st with
  | nil => simp
  | cons r rs ih =>
      simp only [List.foldl_cons]
      rw [ih]
      cases r <;>
        · simp only [request_state, List.length_cons]
          omega

lemma foldl_request_state_latencies (outcomes : List TransportResult) (st : RState) :
    (outcomes.foldl (fun s r => request_state r s) st).latencies
      = st.latencies ++ (outcomes.filterMap fun r =>
          match r with
          | .response _ e => some e
          | .raised _ => none) := by
  induction outcomes generalizing st with
  | nil => simp
  | cons r rs ih =>
      simp only [List.foldl_cons]
      rw [ih]
      cases r <;> simp [request_state, List.filterMap_cons]

/-- C1: FALSE of the code.  With a budget of 1 and the single transport call
raising, the run makes its one request (`request_count = 1`) but the latency
list stays empty and `report` prints `Total Requests: 0`, not the budget:
the except-branch of `request` never appends the elapsed time. -/
theorem run_raised_budget_report :
    report (run false 1 fun _ => .raised (1/20)) = ⟨0, 1⟩
    ∧ (run false 1 fun _ => .raised (1/20)).request_count = 1 := by
  constructor <;> rfl

/-- C2: FALSE of the code.  A run of 3 requests in which every transport call
raises leaves the latency list empty (the claim and the repository's own test
expect length 3), while the error count is 3. -/
theorem run_all_raised_no_latencies :
    (run false 3 fun _ => .raised (1/20)).latencies = []
    ∧ (run false 3 fun _ => .raised (1/20)).errors = 3 := by
  constructor <;> rfl

/-- C3 counterexample: `calculate_response_time_percentiles` applied to an
empty latency list with the non-empty threshold list `[0.25]` raises
`ZeroDivisionError` (it divides by `len(self.latencies) = 0`). -/
theorem calculate_response_time_percentiles_empty_raises :
    calculate_response_time_percentiles [] [1/4] = .error .zeroDivisionError := rfl

/-- C3 (amended): on an empty latency list `log_report` writes only the
no-data sentinel and never invokes the threshold computation, for every
configured percentile and threshold list, so the reporting flow raises no
division error. -/
theorem log_report_empty_noData (percentiles reponses : List ℚ) :
    log_report [] percentiles reponses = .ok .noData := rfl

/-- C4: after any run, the error counter equals the number of outcomes whose
transport call raised (`Failure`) plus the number of responses (`Success`)
whose status code is not 200; moreover every one of the `max_requests`
outcomes is counted exactly once (`request_count = max_requests`). -/
theorem run_errors_spec (log_enabled : Bool) (n : ℕ)
    (transport : ℕ → TransportResult) :
    (run log_enabled n transport).errors
      = ((List.range n).map transport).countP isRaised
        + ((List.range n).map transport).countP isBadStatus
    ∧ (run log_enabled n transport).request_count = n := by
  rw [run_eq_foldl]
  refine ⟨?_, ?_⟩
  · simpa [initState] using
      foldl_request_state_errors ((List.range n).map transport) initState
  · simpa [initState] using
      foldl_request_state_count ((List.range n).map transport) initState

/-- C9: when logging is enabled and the transport call raises, `request`
increments the error counter and the request count, writes no log line, and
itself raises `NameError` (the logging line reads `response.status_code`, but
`response` was never bound on the exception path). -/
theorem request_raised_logging_nameError (start_time elapsed : ℚ) (st : RState) :
    request true start_time (.raised elapsed) st
      = ({ st with errors := st.errors + 1, request_count := st.request_count + 1 },
         [], some .nameError) := rfl

/-- C5: on a non-empty latency list, `calculate_response_time_percentiles`
returns, for each threshold `t` in order, exactly the spec value
`100 × count(latency ≥ t) / N` keyed by `t`. -/
theorem calculate_response_time_percentiles_spec (latencies thresholds : List ℚ)
    (h : latencies ≠ []) :
    calculate_response_time_percentiles latencies thresholds
      = .ok (thresholds.map fun t => (t, spec_exceedance latencies t)) := by
  induction thresholds with
  | nil => rfl
  | cons t ts ih =>
      have hlen : latencies.length ≠ 0 := by simpa using h
      simp only [calculate_response_time_percentiles, hlen, if_false, ih,
        List.map_cons]
      have : exceedance_pct latencies t = spec_exceedance latencies t := by
        unfold exceedance_pct spec_exceedance
        rw [div_mul_eq_mul_div, mul_comm]
      rw [this]

/-- C5 witness: the spec scenario — latencies `[0.1, 0.2, 0.3, 0.4, 0.5]`,
thresholds `[0.25]` — yields an exceedance of exactly 60%. -/
theorem calculate_response_time_percentiles_spec_witness :
    calculate_response_time_percentiles [1/10, 2/10, 3/10, 4/10, 5/10] [1/4]
      = .ok [(1/4, 60)] := by
  rw [calculate_response_time_percentiles_spec _ _ (by simp)]
  norm_num [spec_exceedance, List.countP_cons, List.countP_nil]

/-- C7: for a fixed non-empty latency list, the percentage computed by
`calculate_response_time_percentiles` is monotonically non-increasing in the
threshold. -/
theorem exceedance_pct_antitone (latencies : List ℚ) (t1 t2 : ℚ)
    (h : latencies ≠ []) (ht : t1 ≤ t2) :
    exceedance_pct latencies t2 ≤ exceedance_pct latencies t1 := by
  unfold exceedance_pct
  have hN : (0:ℚ) < ((latencies.length : ℕ) : ℚ) := by
    exact_mod_cast List.length_pos.mpr h
  have hcount : latencies.countP (fun l => decide (t2 ≤ l))
      ≤ latencies.countP (fun l => decide (t1 ≤ l)) := by
    refine List.countP_mono_left ?_
    intro x _ hx
    simp only [decide_eq_true_eq] at hx ⊢
    exact le_trans ht hx
  refine mul_le_mul_of_nonneg_right ?_ (by norm_num)
  exact (div_le_div_iff_of_pos_right hN).mpr (by exact_mod_cast hcount)

/-- C7 witness: at latencies `[0.1, …, 0.5]` with thresholds `0.25 ≤ 0.5`,
the exceedance for `0.5` is at most the exceedance for `0.25`. -/
theorem exceedance_pct_antitone_witness :
    exceedance_pct [1/10, 2/10, 3/10, 4/10, 5/10] (1/2)
      ≤ exceedance_pct [1/10, 2/10, 3/10, 4/10, 5/10] (1/4) :=
  exceedance_pct_antitone _ _ _ (by simp) (by norm_num)

lemma foldl_min_le_init (xs : List ℚ) (a : ℚ) : xs.foldl min a ≤ a := by
  induction xs generalizing a with
  | nil => exact le_refl a
  | cons x xs ih =>
      exact le_trans (ih (min a x)) (min_le_left a x)

lemma foldl_min_le_mem (xs : List ℚ) (a x : ℚ) (hx : x ∈ xs) :
    xs.foldl min a ≤ x := by
  induction xs generalizing a with
  | nil => cases hx
  | cons y ys ih =>
      rcases List.mem_cons.mp hx with h | h
      · subst h
        exact le_trans (foldl_min_le_init ys (min a x)) (min_le_right a x)
      · exact ih (min a y) h

lemma foldl_min_mem (xs : List ℚ) (a : ℚ) :
    xs.foldl min a = a ∨ xs.foldl min a ∈ xs := by
  induction xs generalizing a with
  | nil => exact Or.inl rfl
  | cons x xs ih =>
      simp only [List.foldl_cons]
      rcases ih (min a x) with h | h
      · rcases min_choice a x with hm | hm
        · exact Or.inl (h.trans hm)
        · exact Or.inr (by rw [h, hm]; exact List.mem_cons_self x xs)
      · exact Or.inr (List.mem_cons_of_mem x h)

lemma foldl_max_init_le (xs : List ℚ) (a : ℚ) : a ≤ xs.foldl max a := by
  induction xs generalizing a with
  | nil => exact le_refl a
  | cons x xs ih =>
      exact le_trans (le_max_left a x) (ih (max a x))

lemma foldl_max_mem_le (xs : List ℚ) (a x : ℚ) (hx : x ∈ xs) :
    x ≤ xs.foldl max a := by
  induction xs generalizing a with
  | nil => cases hx
  | cons y ys ih =>
      rcases List.mem_cons.mp hx with h | h
      · subst h
        exact le_trans (le_max_right a x) (foldl_max_init_le ys (max a x))
      · exact ih (max a y) h

lemma foldl_max_mem (xs : List ℚ) (a : ℚ) :
    xs.foldl max a = a ∨ xs.foldl max a ∈ xs := by
  induction xs generalizing a with
  | nil => exact Or.inl rfl
  | cons x xs ih =>
      simp only [List.foldl_cons]
      rcases ih (max a x) with h | h
      · rcases max_choice a x with hm | hm
        · exact Or.inl (h.trans hm)
        · exact Or.inr (by rw [h, hm]; exact List.mem_cons_self x xs)
      · exact Or.inr (List.mem_cons_of_mem x h)

lemma pyMin_le (l : List ℚ) (x : ℚ) (hx : x ∈ l) : pyMin l ≤ x := by
  match l with
  | y :: ys =>
      rcases List.mem_cons.mp hx with h | h
      · subst h
        exact foldl_min_le_init ys x
      · exact foldl_min_le_mem ys y x h

lemma pyMin_mem (l : List ℚ) (h : l ≠ []) : pyMin l ∈ l := by
  match l with
  | y :: ys =>
      rcases foldl_min_mem ys y with hm | hm
      · rw [pyMin, hm]
        exact List.mem_cons_self y ys
      · exact List.mem_cons_of_mem y hm

lemma le_pyMax (l : List ℚ) (x : ℚ) (hx : x ∈ l) : x ≤ pyMax l := by
  match l with
  | y :: ys =>
      rcases List.mem_cons.mp hx with h | h
      · subst h
        exact foldl_max_init_le ys x
      · exact foldl_max_mem_le ys y x h

lemma pyMax_mem (l : List ℚ) (h : l ≠ []) : pyMax l ∈ l := by
  match l with
  | y :: ys =>
      rcases foldl_max_mem ys y with hm | hm
      · rw [pyMax, hm]
        exact List.mem_cons_self y ys
      · exact List.mem_cons_of_mem y hm

lemma avg_latency_eq_spec_mean (l : List ℚ) : avg_latency l = spec_mean l :=
  div_eq_inv_mul l.sum (l.length : ℚ)

lemma std_dev_sq_eq_spec_variance (l : List ℚ) :
    std_dev_sq l = spec_population_variance l := by
  unfold std_dev_sq spec_population_variance
  rw [avg_latency_eq_spec_mean, div_eq_inv_mul]

/-- C6: for a non-empty latency list the quantities computed by `log_report`
agree with the spec's reference definitions: the mean is the arithmetic mean,
`max`/`min` are the extrema of the list, the amplitude is their difference,
and the standard deviation is the square root of the population variance
(sum of squared deviations from the mean divided by N, not N−1). -/
theorem log_report_stats_spec (l : List ℚ) (h : l ≠ []) :
    avg_latency l = spec_mean l
    ∧ l.maximum = (pyMax l : WithBot ℚ)
    ∧ l.minimum = (pyMin l : WithTop ℚ)
    ∧ (∀ M m : ℚ, l.maximum = (M : WithBot ℚ) → l.minimum = (m : WithTop ℚ) →
        pyMax l - pyMin l = M - m)
    ∧ std_dev l = Real.sqrt ((spec_population_variance l : ℚ) : ℝ) := by
  have hmax : l.maximum = (pyMax l : WithBot ℚ) :=
    List.maximum_eq_coe_iff.mpr ⟨pyMax_mem l h, fun x hx => le_pyMax l x hx⟩
  have hmin : l.minimum = (pyMin l : WithTop ℚ) :=
    List.minimum_eq_coe_iff.mpr ⟨pyMin_mem l h, fun x hx => pyMin_le l x hx⟩
  refine ⟨avg_latency_eq_spec_mean l, hmax, hmin, ?_, ?_⟩
  · intro M m hM hm
    rw [hmax] at hM
    rw [hmin] at hm
    have hM' : pyMax l = M := by exact_mod_cast hM
    have hm' : pyMin l = m := by exact_mod_cast hm
    rw [hM', hm']
  · unfold std_dev
    rw [std_dev_sq_eq_spec_variance]

/-- C6 witness: for latencies `[1, 3]` the mean is the arithmetic mean 2, the
extrema are 3 and 1, the amplitude is 2, and the standard deviation is the
square root of the population variance 1. -/
theorem log_report_stats_spec_witness :
    avg_latency [1, 3] = 2
    ∧ List.maximum [(1 : ℚ), 3] = ((3 : ℚ) : WithBot ℚ)
    ∧ List.minimum [(1 : ℚ), 3] = ((1 : ℚ) : WithTop ℚ)
    ∧ pyMax [1, 3] - pyMin [1, 3] = 2
    ∧ std_dev [1, 3] = Real.sqrt ((1 : ℚ) : ℝ) := by
  have h := log_report_stats_spec [1, 3] (by simp)
  have hmax : pyMax [(1 : ℚ), 3] = 3 := by norm_num [pyMax]
  have hmin : pyMin [(1 : ℚ), 3] = 1 := by norm_num [pyMin]
  have hvar : spec_population_variance [1, 3] = 1 := by
    norm_num [spec_population_variance, spec_mean]
  refine ⟨?_, ?_, ?_, ?_, ?_⟩
  · rw [h.1]
    norm_num [spec_mean]
  · rw [h.2.1, hmax]
  · rw [h.2.2.1, hmin]
  · rw [hmax, hmin]
    norm_num
  · rw [h.2.2.2.2, hvar]

lemma insertionSort_perm (l : List ℚ) :
    (List.insertionSort (fun a b => a ≤ b) l).Perm l :=
  List.perm_insertionSort _ l

lemma insertionSort_sorted (l : List ℚ) :
    List.Sorted (fun a b : ℚ => a ≤ b) (List.insertionSort (fun a b => a ≤ b) l) :=
  List.sorted_insertionSort _ l

lemma insertionSort_ne_nil (l : List ℚ) (h : l ≠ []) :
    List.insertionSort (fun a b => a ≤ b) l ≠ [] := by
  intro hs
  have hlen := (insertionSort_perm l).length_eq
  rw [hs] at hlen
  exact h (List.length_eq_zero.mp hlen.symm)

lemma insertionSort_head_eq_pyMin (l : List ℚ) (h : l ≠ []) :
    (List.insertionSort (fun a b => a ≤ b) l).getD 0 0 = pyMin l := by
  have hperm := insertionSort_perm l
  have hsorted := insertionSort_sorted l
  obtain ⟨a, t, hs⟩ := List.exists_cons_of_ne_nil (insertionSort_ne_nil l h)
  rw [hs] at hperm hsorted ⊢
  have hsc := List.sorted_cons.mp hsorted
  have ha_mem : a ∈ l := hperm.mem_iff.mp (List.mem_cons_self a t)
  have ha_le : ∀ y ∈ l, a ≤ y := by
    intro y hy
    rcases List.mem_cons.mp (hperm.mem_iff.mpr hy) with hya | hyt
    · exact le_of_eq hya.symm
    · exact hsc.1 y hyt
  rw [List.getD_cons_zero]
  exact le_antisymm (ha_le _ (pyMin_mem l h)) (pyMin_le l a ha_mem)

lemma insertionSort_last_eq_pyMax (l : List ℚ) (h : l ≠ []) :
    (List.insertionSort (fun a b => a ≤ b) l).getD (l.length - 1) 0 = pyMax l := by
  have hperm := insertionSort_perm l
  have hsorted := insertionSort_sorted l
  have hslen : (List.insertionSort (fun a b => a ≤ b) l).length = l.length :=
    hperm.length_eq
  have hlpos : 0 < l.length := List.length_pos.mpr h
  have hidx : l.length - 1 < (List.insertionSort (fun a b => a ≤ b) l).length := by
    omega
  rw [List.getD_eq_getElem _ 0 hidx]
  have hmem : (List.insertionSort (fun a b => a ≤ b) l)[l.length - 1] ∈ l :=
    hperm.mem_iff.mp (List.getElem_mem hidx)
  have hle : ∀ y ∈ l, y ≤ (List.insertionSort (fun a b => a ≤ b) l)[l.length - 1] := by
    intro y hy
    obtain ⟨j, hj⟩ := List.mem_iff_get.mp (hperm.mem_iff.mpr hy)
    rw [← hj]
    have hjle : j ≤ (⟨l.length - 1, hidx⟩ :
        Fin (List.insertionSort (fun a b => a ≤ b) l).length) := by
      have := j.isLt
      exact Fin.mk_le_mk.mpr (by omega)
    have := hsorted.rel_get_of_le hjle
    simpa using this
  exact le_antisymm (le_pyMax l _ hmem) (hle _ (pyMax_mem l h))

/-- C8: for every non-empty latency list, the interpolated percentile of the
spec satisfies Percentile(0) = min(latencies) and
Percentile(100) = max(latencies). -/
theorem percentile_extremes (l : List ℚ) (h : l ≠ []) :
    percentile l 0 = some (pyMin l) ∧ percentile l 100 = some (pyMax l) := by
  obtain ⟨x, xs, rfl⟩ := List.exists_cons_of_ne_nil h
  constructor
  · simp only [percentile]
    rw [← insertionSort_head_eq_pyMin (x :: xs) h]
    norm_num
  · simp only [percentile]
    rw [← insertionSort_last_eq_pyMax (x :: xs) h]
    have hlen : ((x :: xs).length : ℚ) - 1 = (((x :: xs).length - 1 : ℕ) : ℚ) := by
      have : 1 ≤ (x :: xs).length := by simp
      push_cast [Nat.cast_sub this]
      ring
    norm_num [hlen]

/-- C8 witness: for the latencies `[0.3, 0.1, 0.2]`, Percentile(0) is the
minimum 0.1 and Percentile(100) is the maximum 0.3. -/
theorem percentile_extremes_witness :
    percentile [3/10, 1/10, 2/10] 0 = some (1/10)
    ∧ percentile [3/10, 1/10, 2/10] 100 = some (3/10) := by
  have h := percentile_extremes [3/10, 1/10, 2/10] (by simp)
  have hmin : pyMin [(3:ℚ)/10, 1/10, 2/10] = 1/10 := by norm_num [pyMin]
  have hmax : pyMax [(3:ℚ)/10, 1/10, 2/10] = 3/10 := by norm_num [pyMax]
  exact ⟨by rw [h.1, hmin], by rw [h.2, hmax]⟩

/-- `kwargs['k']` on the configuration dictionary: raises `KeyError` when the
key is absent. -/
def getItem (kwargs : String → Option PyVal) (k : String) : Except PyError PyVal :=
  match kwargs k with
  | some v => .ok v
  | none => .error (.keyError k)

/-- Python's `.upper()`: defined on strings, raises `AttributeError` on the
other configuration values. -/
def PyVal.upper : PyVal → Except PyError PyVal
  | .pystr s => .ok (.pystr s.toUpper)
  | _ => .error .attributeError

/-- The attributes `__init__` stores on the object (besides the run state
`errors = 0`, `latencies = []`, `request_count = 0` of `initState`). -/
structure Config where
  url : PyVal
  qps : PyVal
  timeout : PyVal
  headers : PyVal
  payload : PyVal
  max_requests : PyVal
  method : PyVal
  log_enabled : PyVal
  percentiles : PyVal
  reponses : PyVal
  deriving DecidableEq

/-- `LoadTester.__init__`: reads the ten dictionary keys in source order
(each raising `KeyError` if absent), upper-cases the method, and defaults
`percentiles`/`response_thres` to `[]` when falsy. -/
def init (kwargs : String → Option PyVal) : Except PyError Config :=
  match getItem kwargs "url" with
  | .error e => .error e
  | .ok url =>
  match getItem kwargs "qps" with
  | .error e => .error e
  | .ok qps =>
  match getItem kwargs "timeout" with
  | .error e => .error e
  | .ok timeout =>
  match getItem kwargs "headers" with
  | .error e => .error e
  | .ok headers =>
  match getItem kwargs "payload" with
  | .error e => .error e
  | .ok payload =>
  match getItem kwargs "max_requests" with
  | .error e => .error e
  | .ok max_requests =>
  match getItem kwargs "method" with
  | .error e => .error e
  | .ok method_raw =>
  match method_raw.upper with
  | .error e => .error e
  | .ok method =>
  match getItem kwargs "logging" with
  | .error e => .error e
  | .ok log_enabled =>
  match getItem kwargs "percentiles" with
  | .error e => .error e
  | .ok percentiles =>
  match getItem kwargs "response_thres" with
  | .error e => .error e
  | .ok response_thres =>
  .ok { url := url, qps := qps, timeout := timeout, headers := headers,
        payload := payload, max_requests := max_requests, method := method,
        log_enabled := log_enabled,
        percentiles := if percentiles.truthy then percentiles else .pylist [],
        reponses := if response_thres.truthy then response_thres else .pylist [] }

/-- The ten keys `__init__` reads, in source order — including `timeout`,
`max_requests`, `method`, `headers`, `payload`, `logging` and `percentiles`,
which the docstring calls optional, and `response_thres`, which it does not
document at all. -/
def requiredKeys : List String :=
  ["url", "qps", "timeout", "headers", "payload", "max_requests",
   "method", "logging", "percentiles", "response_thres"]

/-- C10: for a configuration dictionary whose `method` entry (when present)
is a string, construction succeeds iff every one of the ten keys is present,
and any failure is a `KeyError` naming a missing required key.  `init` is a
pure function of the dictionary alone — no transport call is involved — so
the failure occurs before any request is issued. -/
theorem init_requires_all_keys (kwargs : String → Option PyVal)
    (hm : ∀ v, kwargs "method" = some v → ∃ s, v = .pystr s) :
    ((∃ c, init kwargs = .ok c) ↔ ∀ k ∈ requiredKeys, (kwargs k).isSome)
    ∧ (∀ e, init kwargs = .error e →
        ∃ k ∈ requiredKeys, e = .keyError k ∧ kwargs k = none) := by
  cases hurl : kwargs "url" with
  | none => simp [init, getItem, hurl, requiredKeys]
  | some vurl =>
  cases hqps : kwargs "qps" with
  | none => simp [init, getItem, hurl, hqps, requiredKeys]
  | some vqps =>
  cases htimeout : kwargs "timeout" with
  | none => simp [init, getItem, hurl, hqps, htimeout, requiredKeys]
  | some vtimeout =>
  cases hheaders : kwargs "headers" with
  | none => simp [init, getItem, hurl, hqps, htimeout, hheaders, requiredKeys]
  | some vheaders =>
  cases hpayload : kwargs "payload" with
  | none => simp [init, getItem, hurl, hqps, htimeout, hheaders, hpayload,
      requiredKeys]
  | some vpayload =>
  cases hmax : kwargs "max_requests" with
  | none => simp [init, getItem, hurl, hqps, htimeout, hheaders, hpayload,
      hmax, requiredKeys]
  | some vmax =>
  cases hmethod : kwargs "method" with
  | none => simp [init, getItem, hurl, hqps, htimeout, hheaders, hpayload,
      hmax, hmethod, requiredKeys]
  | some vmethod =>
  obtain ⟨s, rfl⟩ := hm vmethod hmethod
  cases hlog : kwargs "logging" with
  | none => simp [init, getItem, hurl, hqps, htimeout, hheaders, hpayload,
      hmax, hmethod, hlog, requiredKeys, PyVal.upper]
  | some vlog =>
  cases hperc : kwargs "percentiles" with
  | none => simp [init, getItem, hurl, hqps, htimeout, hheaders, hpayload,
      hmax, hmethod, hlog, hperc, requiredKeys, PyVal.upper]
  | some vperc =>
  cases hthres : kwargs "response_thres" with
  | none => simp [init, getItem, hurl, hqps, htimeout, hheaders, hpayload,
      hmax, hmethod, hlog, hperc, hthres, requiredKeys, PyVal.upper]
  | some vthres =>
      simp [init, getItem, hurl, hqps, htimeout, hheaders, hpayload,
        hmax, hmethod, hlog, hperc, hthres, requiredKeys, PyVal.upper]

/-- C10 witness: with every key present (all bound to a string value),
construction succeeds; the dictionary of the repository's own
`test_load_tester.py` first cases, which omits `response_thres`, fails. -/
theorem init_requires_all_keys_witness :
    ((∃ c, init (fun _ => some (.pystr "GET")) = .ok c)
      ↔ ∀ k ∈ requiredKeys, ((fun (_ : String) => some (PyVal.pystr "GET")) k).isSome)
    ∧ (∀ e, init (fun _ => some (.pystr "GET")) = .error e →
        ∃ k ∈ requiredKeys, e = .keyError k
          ∧ (fun (_ : String) => some (PyVal.pystr "GET")) k = none) :=
  init_requires_all_keys (fun _ => some (.pystr "GET"))
    (fun v hv => ⟨"GET", by injection hv with hv; exact hv.symm⟩)

end LoadTester
